import Mathlib

/-!
Verification of the crypto-dashboard derivatives core.

This file gives a shallow embedding, in Lean 4, of the numeric and
control-flow core of the repository:

* `backend/analysis/liquidation_heatmap.py` (liquidation heatmap estimator),
* `backend/scoring/fragility.py` (fragility scoring),
* `backend/data/utils/rate_limiter.py` (retry executor),
* `backend/data/aggregator.py` (multi-exchange price fallback),
* `backend/data/collectors/liquidation_ws.py` (liquidation memory store),
* `backend/data/fetchers/liquidation.py` (heatmap cache orchestration),

and proves or refutes the frozen claims about them.

Conventions of the embedding:

* Python floats are modelled as exact rationals (`ℚ`) wherever the code is
  purely rational, and as reals (`ℝ`) where `numpy.std` introduces a square
  root.  Claims are settled in exact arithmetic.
* Python `round` is round-half-to-even, modelled by `pyRound` below.
* Python dicts that are used as accumulators keyed by price level are
  modelled as insertion-ordered association lists (`List (ℤ × ℚ)`) with
  first-key-wins lookup, exactly mirroring `d.get(k, 0)` and `d[k] = v`.
* Code with I/O is modelled by passing the outcome of each network call in
  as data, and passing caches and clocks explicitly.
-/

/-! ## Python `round`: round half to even -/

/-- Python `round(x)`: nearest integer, ties go to the even neighbour. -/
def pyRound {α : Type} [LinearOrderedField α] [FloorRing α] [DecidableEq α]
    (x : α) : ℤ :=
  if Int.fract x = 1/2 then
    (if 2 ∣ ⌊x⌋ then ⌊x⌋ else ⌊x⌋ + 1)
  else
    round x

theorem floor_le_pyRound {α : Type} [LinearOrderedField α] [FloorRing α]
    [DecidableEq α] (x : α) : ⌊x⌋ ≤ pyRound x := by
  unfold pyRound
  split
  · split <;> omega
  · rw [round_eq]
    exact Int.floor_mono (by linarith)

theorem pyRound_le_ceil {α : Type} [LinearOrderedField α] [FloorRing α]
    [DecidableEq α] (x : α) : pyRound x ≤ ⌈x⌉ := by
  unfold pyRound
  split
  · rename_i h
    have hfl : (⌊x⌋ : α) = x - 1/2 := by
      have hadd := Int.floor_add_fract x
      rw [h] at hadd
      linarith
    have hceil : ⌈x⌉ = ⌊x⌋ + 1 := by
      have h2 : ⌈x⌉ ≤ ⌊x⌋ + 1 := Int.ceil_le.mpr (by push_cast; linarith)
      have h3 : (⌊x⌋ : α) < x := by linarith
      have h4 : (⌊x⌋ : α) < (⌈x⌉ : α) := lt_of_lt_of_le h3 (Int.le_ceil x)
      have h5 : ⌊x⌋ < ⌈x⌉ := by exact_mod_cast h4
      omega
    split <;> omega
  · rw [round_eq]
    have h1 : (⌊x + 1/2⌋ : α) ≤ x + 1/2 := Int.floor_le _
    have h2 : x ≤ ⌈x⌉ := Int.le_ceil x
    have : (⌊x + 1/2⌋ : α) < (⌈x⌉ : α) + 1 := by linarith
    exact_mod_cast Int.lt_add_one_iff.mp (by exact_mod_cast this)

example : pyRound (191/2 : ℚ) = 96 := by norm_num [pyRound, Int.fract]
example : pyRound (165/2 : ℚ) = 82 := by norm_num [pyRound, Int.fract]
example : pyRound (173/2 : ℚ) = 86 := by norm_num [pyRound, Int.fract]
example : pyRound (8645/100 : ℚ) = 86 := by norm_num [pyRound, Int.fract, round_eq]

/-! ## Python dict accumulators as association lists -/

/-- `d[k] = v` on an insertion-ordered dict: replace the value of the first
entry with key `k`, keeping its position, or append a fresh entry. -/
def dictSet (m : List (ℤ × ℚ)) (k : ℤ) (v : ℚ) : List (ℤ × ℚ) :=
  match m with
  | [] => [(k, v)]
  | (k', v') :: rest => if k' = k then (k, v) :: rest else (k', v') :: dictSet rest k v

/-- `d.get(k, dflt)`. -/
def dictGetD (m : List (ℤ × ℚ)) (k : ℤ) (dflt : ℚ) : ℚ :=
  ((m.lookup k).getD dflt)

/-- `d[k] = d.get(k, 0) + v`. -/
def dictAdd (m : List (ℤ × ℚ)) (k : ℤ) (v : ℚ) : List (ℤ × ℚ) :=
  dictSet m k (dictGetD m k 0 + v)

/-- `sum(d.values())`. -/
def valuesSum (m : List (ℤ × ℚ)) : ℚ :=
  (m.map Prod.snd).sum

theorem dictGetD_dictSet_same (m : List (ℤ × ℚ)) (k : ℤ) (v : ℚ) :
    dictGetD (dictSet m k v) k 0 = v := by
  induction m with
  | nil => simp [dictSet, dictGetD, List.lookup]
  | cons hd tl ih =>
    obtain ⟨k', v'⟩ := hd
    by_cases h : k' = k
    · subst h
      simp [dictSet, dictGetD, List.lookup]
    · simp only [dictSet, if_neg h]
      simpa [dictGetD, List.lookup, show (k == k') = false by simp [beq_iff_eq]; omega] using ih

theorem dictGetD_dictSet_ne (m : List (ℤ × ℚ)) (k k' : ℤ) (v : ℚ) (h : k' ≠ k) :
    dictGetD (dictSet m k v) k' 0 = dictGetD m k' 0 := by
  induction m with
  | nil => simp [dictSet, dictGetD, List.lookup, show (k' == k) = false by simp [beq_iff_eq]; omega]
  | cons hd tl ih =>
    obtain ⟨k₀, v₀⟩ := hd
    by_cases h0 : k₀ = k
    · subst h0
      simp [dictSet, dictGetD, List.lookup,
        show (k' == k₀) = false by simp [beq_iff_eq]; omega]
    · simp only [dictSet, if_neg h0]
      by_cases h1 : k' = k₀
      · subst h1
        simp [dictGetD, List.lookup]
      · simpa [dictGetD, List.lookup,
          show (k' == k₀) = false by simp [beq_iff_eq]; omega] using ih

theorem lookup_dictSet_isSome_iff (m : List (ℤ × ℚ)) (k k' : ℤ) (v : ℚ) :
    ((dictSet m k v).lookup k').isSome ↔ k' = k ∨ (m.lookup k').isSome := by
  induction m with
  | nil =>
    by_cases h : k' = k
    · simp [dictSet, List.lookup, h]
    · simp [dictSet, List.lookup, h, beq_eq_false_iff_ne.mpr h]
  | cons hd tl ih =>
    obtain ⟨k₀, v₀⟩ := hd
    by_cases h0 : k₀ = k
    · subst h0
      by_cases h1 : k' = k₀
      · simp [dictSet, List.lookup, h1]
      · simp [dictSet, List.lookup, beq_eq_false_iff_ne.mpr h1, h1]
    · simp only [dictSet, if_neg h0]
      by_cases h1 : k' = k₀
      · subst h1
        simp [List.lookup, beq_iff_eq]
      · simp only [List.lookup, show (k' == k₀) = false by simp [beq_iff_eq]; omega]
        exact ih

theorem lookup_dictAdd_isSome_iff (m : List (ℤ × ℚ)) (k k' : ℤ) (v : ℚ) :
    ((dictAdd m k v).lookup k').isSome ↔ k' = k ∨ (m.lookup k').isSome := by
  unfold dictAdd
  exact lookup_dictSet_isSome_iff ..

theorem valuesSum_dictAdd (m : List (ℤ × ℚ)) (k : ℤ) (v : ℚ) :
    valuesSum (dictAdd m k v) = valuesSum m + v := by
  induction m with
  | nil => simp [dictAdd, dictSet, dictGetD, valuesSum, List.lookup]
  | cons hd tl ih =>
    obtain ⟨k₀, v₀⟩ := hd
    by_cases h0 : k₀ = k
    · subst h0
      simp [dictAdd, dictSet, dictGetD, valuesSum, List.lookup]
      ring
    · have hne : (k == k₀) = false := by simp [beq_iff_eq]; omega
      simp only [dictAdd, dictSet, if_neg h0, dictGetD, List.lookup, hne] at *
      simp only [valuesSum, List.map_cons, List.sum_cons] at *
      linarith [ih]

/-! ## `backend/analysis/liquidation_heatmap.py` -/

/-- `LEVERAGE_DISTRIBUTION`: leverage tier -> population weight, in the
insertion order of the Python dict. -/
def LEVERAGE_DISTRIBUTION : List (ℕ × ℚ) :=
  [(5, 10/100), (10, 25/100), (20, 30/100), (50, 25/100), (100, 10/100)]

/-- `calculate_liquidation_price(entry_price, leverage, is_long)`. -/
def calculate_liquidation_price (entry_price : ℚ) (leverage : ℕ) (is_long : Bool) : ℚ :=
  let margin_factor := (9/10 : ℚ) / leverage
  if is_long then entry_price * (1 - margin_factor)
  else entry_price * (1 + margin_factor)

/-- `estimate_long_short_ratio(funding_rate)`; returns the pair
`(long_ratio, short_ratio)`. -/
def estimate_long_short_split (funding_rate : ℚ) : ℚ × ℚ :=
  if funding_rate > 5/10000 then (60/100, 40/100)
  else if funding_rate > 2/10000 then (55/100, 45/100)
  else if funding_rate < -(5/10000) then (40/100, 60/100)
  else if funding_rate < -(2/10000) then (45/100, 55/100)
  else (50/100, 50/100)

/-- `round(price / 1000) * 1000`: the $1000 price bucket of a price. -/
def priceBucket (price : ℚ) : ℤ :=
  pyRound (price / 1000) * 1000

/-- Whether a leverage tier generates a long liquidation level that the loop
accepts: `min_price <= long_liq_price < current_price`. -/
def longTierAccepted (current_price min_price : ℚ) (leverage : ℕ) : Prop :=
  min_price ≤ calculate_liquidation_price current_price leverage true ∧
    calculate_liquidation_price current_price leverage true < current_price

/-- Whether a leverage tier generates a short liquidation level that the loop
accepts: `current_price < short_liq_price <= max_price`. -/
def shortTierAccepted (current_price max_price : ℚ) (leverage : ℕ) : Prop :=
  current_price < calculate_liquidation_price current_price leverage false ∧
    calculate_liquidation_price current_price leverage false ≤ max_price

instance (cp mp : ℚ) (lv : ℕ) : Decidable (longTierAccepted cp mp lv) := by
  unfold longTierAccepted; infer_instance

instance (cp mp : ℚ) (lv : ℕ) : Decidable (shortTierAccepted cp mp lv) := by
  unfold shortTierAccepted; infer_instance

/-- The body of the `for leverage, weight in LEVERAGE_DISTRIBUTION.items()`
loop of `estimate_liquidation_heatmap`, iterated over the remaining tiers.
The state is the pair of accumulator dicts `(long_liqs, short_liqs)`. -/
def liqTierLoop (current_price long_oi short_oi min_price max_price : ℚ) :
    List (ℕ × ℚ) → List (ℤ × ℚ) × List (ℤ × ℚ) → List (ℤ × ℚ) × List (ℤ × ℚ)
  | [], ms => ms
  | (leverage, weight) :: rest, (long_liqs, short_liqs) =>
    let long_liq_price := calculate_liquidation_price current_price leverage true
    let long_liqs' :=
      if longTierAccepted current_price min_price leverage then
        dictAdd long_liqs (priceBucket long_liq_price) (long_oi * weight)
      else long_liqs
    let short_liq_price := calculate_liquidation_price current_price leverage false
    let short_liqs' :=
      if shortTierAccepted current_price max_price leverage then
        dictAdd short_liqs (priceBucket short_liq_price) (short_oi * weight)
      else short_liqs
    liqTierLoop current_price long_oi short_oi min_price max_price rest (long_liqs', short_liqs')

/-- The result dict of `estimate_liquidation_heatmap` (presentation-only
fields `data_type`, `disclaimer` and the `methodology` echo of the constants
are omitted; `long_ratio`/`short_ratio` are kept). -/
structure EstimatedHeatmap where
  long_liquidations : List (ℤ × ℚ)
  short_liquidations : List (ℤ × ℚ)
  total_long_at_risk : ℚ
  total_short_at_risk : ℚ
  methodology_long_share : ℚ
  methodology_short_share : ℚ
deriving Repr, DecidableEq

/-- `estimate_liquidation_heatmap(current_price, oi_usd, funding_rate,
price_range_pct=0.20)`. -/
def estimate_liquidation_heatmap (current_price oi_usd funding_rate : ℚ)
    (price_range_pct : ℚ := 20/100) : EstimatedHeatmap :=
  let split := estimate_long_short_split funding_rate
  let long_oi := oi_usd * split.1
  let short_oi := oi_usd * split.2
  let min_price := current_price * (1 - price_range_pct)
  let max_price := current_price * (1 + price_range_pct)
  let maps := liqTierLoop current_price long_oi short_oi min_price max_price
    LEVERAGE_DISTRIBUTION ([], [])
  { long_liquidations := maps.1
    short_liquidations := maps.2
    total_long_at_risk := valuesSum maps.1
    total_short_at_risk := valuesSum maps.2
    methodology_long_share := split.1
    methodology_short_share := split.2 }

/-- Sum of the estimated long-side USD contributions that the tiers in `ts`
route to bucket `l`. -/
def longContribSum (current_price long_oi min_price : ℚ) (ts : List (ℕ × ℚ)) (l : ℤ) : ℚ :=
  ((ts.filter fun t => decide (longTierAccepted current_price min_price t.1 ∧
      priceBucket (calculate_liquidation_price current_price t.1 true) = l)).map
    fun t => long_oi * t.2).sum

/-- Sum of the estimated short-side USD contributions that the tiers in `ts`
route to bucket `l`. -/
def shortContribSum (current_price short_oi max_price : ℚ) (ts : List (ℕ × ℚ)) (l : ℤ) : ℚ :=
  ((ts.filter fun t => decide (shortTierAccepted current_price max_price t.1 ∧
      priceBucket (calculate_liquidation_price current_price t.1 false) = l)).map
    fun t => short_oi * t.2).sum

theorem liqTierLoop_fst_getD (current_price long_oi short_oi min_price max_price : ℚ)
    (ts : List (ℕ × ℚ)) :
    ∀ (mL mS : List (ℤ × ℚ)) (l : ℤ),
      dictGetD (liqTierLoop current_price long_oi short_oi min_price max_price ts (mL, mS)).1 l 0
        = dictGetD mL l 0 + longContribSum current_price long_oi min_price ts l := by
  induction ts with
  | nil => intro mL mS l; simp [liqTierLoop, longContribSum]
  | cons t rest ih =>
    obtain ⟨lev, w⟩ := t
    intro mL mS l
    simp only [liqTierLoop]
    by_cases hacc : longTierAccepted current_price min_price lev
    · rw [if_pos hacc]
      by_cases hb : priceBucket (calculate_liquidation_price current_price lev true) = l
      · rw [ih]
        rw [hb]
        rw [show dictGetD (dictAdd mL l (long_oi * w)) l 0
            = dictGetD mL l 0 + long_oi * w from dictGetD_dictSet_same ..]
        have : longContribSum current_price long_oi min_price ((lev, w) :: rest) l
            = long_oi * w + longContribSum current_price long_oi min_price rest l := by
          simp [longContribSum, List.filter, hacc, hb]
        rw [this]
        ring
      · rw [ih]
        rw [show dictGetD (dictAdd mL _ (long_oi * w)) l 0 = dictGetD mL l 0 from
          dictGetD_dictSet_ne _ _ _ _ (by omega)]
        have : longContribSum current_price long_oi min_price ((lev, w) :: rest) l
            = longContribSum current_price long_oi min_price rest l := by
          simp [longContribSum, List.filter, hacc, hb]
        rw [this]
    · rw [if_neg hacc]
      rw [ih]
      have : longContribSum current_price long_oi min_price ((lev, w) :: rest) l
          = longContribSum current_price long_oi min_price rest l := by
        simp [longContribSum, List.filter, hacc]
      rw [this]

theorem liqTierLoop_snd_getD (current_price long_oi short_oi min_price max_price : ℚ)
    (ts : List (ℕ × ℚ)) :
    ∀ (mL mS : List (ℤ × ℚ)) (l : ℤ),
      dictGetD (liqTierLoop current_price long_oi short_oi min_price max_price ts (mL, mS)).2 l 0
        = dictGetD mS l 0 + shortContribSum current_price short_oi max_price ts l := by
  induction ts with
  | nil => intro mL mS l; simp [liqTierLoop, shortContribSum]
  | cons t rest ih =>
    obtain ⟨lev, w⟩ := t
    intro mL mS l
    simp only [liqTierLoop]
    by_cases hacc : shortTierAccepted current_price max_price lev
    · rw [if_pos hacc]
      by_cases hb : priceBucket (calculate_liquidation_price current_price lev false) = l
      · rw [ih]
        rw [hb]
        rw [show dictGetD (dictAdd mS l (short_oi * w)) l 0
            = dictGetD mS l 0 + short_oi * w from dictGetD_dictSet_same ..]
        have : shortContribSum current_price short_oi max_price ((lev, w) :: rest) l
            = short_oi * w + shortContribSum current_price short_oi max_price rest l := by
          simp [shortContribSum, List.filter, hacc, hb]
        rw [this]
        ring
      · rw [ih]
        rw [show dictGetD (dictAdd mS _ (short_oi * w)) l 0 = dictGetD mS l 0 from
          dictGetD_dictSet_ne _ _ _ _ (by omega)]
        have : shortContribSum current_price short_oi max_price ((lev, w) :: rest) l
            = shortContribSum current_price short_oi max_price rest l := by
          simp [shortContribSum, List.filter, hacc, hb]
        rw [this]
    · rw [if_neg hacc]
      rw [ih]
      have : shortContribSum current_price short_oi max_price ((lev, w) :: rest) l
          = shortContribSum current_price short_oi max_price rest l := by
        simp [shortContribSum, List.filter, hacc]
      rw [this]

theorem liqTierLoop_fst_isSome (current_price long_oi short_oi min_price max_price : ℚ)
    (ts : List (ℕ × ℚ)) :
    ∀ (mL mS : List (ℤ × ℚ)) (l : ℤ),
      (((liqTierLoop current_price long_oi short_oi min_price max_price ts
          (mL, mS)).1.lookup l).isSome
        ↔ (mL.lookup l).isSome ∨ ∃ t ∈ ts, longTierAccepted current_price min_price t.1 ∧
            priceBucket (calculate_liquidation_price current_price t.1 true) = l) := by
  induction ts with
  | nil => intro mL mS l; simp [liqTierLoop]
  | cons t rest ih =>
    obtain ⟨lev, w⟩ := t
    intro mL mS l
    simp only [liqTierLoop]
    by_cases hacc : longTierAccepted current_price min_price lev
    · rw [if_pos hacc]
      rw [ih]
      rw [lookup_dictAdd_isSome_iff]
      constructor
      · rintro (h | h) 
        · rcases h with h | h
          · exact Or.inr ⟨(lev, w), by simp, hacc, h.symm⟩
          · exact Or.inl h
        · obtain ⟨t, ht, h1, h2⟩ := h
          exact Or.inr ⟨t, by simp [ht], h1, h2⟩
      · rintro (h | ⟨t, ht, h1, h2⟩)
        · exact Or.inl (Or.inr h)
        · rcases List.mem_cons.mp ht with h3 | h3
          · refine Or.inl (Or.inl ?_)
            rw [h3] at h2
            exact h2.symm
          · exact Or.inr ⟨t, h3, h1, h2⟩
    · rw [if_neg hacc]
      rw [ih]
      constructor
      · rintro (h | ⟨t, ht, h1, h2⟩)
        · exact Or.inl h
        · exact Or.inr ⟨t, by simp [ht], h1, h2⟩
      · rintro (h | ⟨t, ht, h1, h2⟩)
        · exact Or.inl h
        · rcases List.mem_cons.mp ht with h3 | h3
          · exfalso
            apply hacc
            rw [h3] at h1
            exact h1
          · exact Or.inr ⟨t, h3, h1, h2⟩

theorem liqTierLoop_snd_isSome (current_price long_oi short_oi min_price max_price : ℚ)
    (ts : List (ℕ × ℚ)) :
    ∀ (mL mS : List (ℤ × ℚ)) (l : ℤ),
      (((liqTierLoop current_price long_oi short_oi min_price max_price ts
          (mL, mS)).2.lookup l).isSome
        ↔ (mS.lookup l).isSome ∨ ∃ t ∈ ts, shortTierAccepted current_price max_price t.1 ∧
            priceBucket (calculate_liquidation_price current_price t.1 false) = l) := by
  induction ts with
  | nil => intro mL mS l; simp [liqTierLoop]
  | cons t rest ih =>
    obtain ⟨lev, w⟩ := t
    intro mL mS l
    simp only [liqTierLoop]
    by_cases hacc : shortTierAccepted current_price max_price lev
    · rw [if_pos hacc]
      rw [ih]
      rw [lookup_dictAdd_isSome_iff]
      constructor
      · rintro (h | h)
        · rcases h with h | h
          · exact Or.inr ⟨(lev, w), by simp, hacc, h.symm⟩
          · exact Or.inl h
        · obtain ⟨t, ht, h1, h2⟩ := h
          exact Or.inr ⟨t, by simp [ht], h1, h2⟩
      · rintro (h | ⟨t, ht, h1, h2⟩)
        · exact Or.inl (Or.inr h)
        · rcases List.mem_cons.mp ht with h3 | h3
          · refine Or.inl (Or.inl ?_)
            rw [h3] at h2
            exact h2.symm
          · exact Or.inr ⟨t, h3, h1, h2⟩
    · rw [if_neg hacc]
      rw [ih]
      constructor
      · rintro (h | ⟨t, ht, h1, h2⟩)
        · exact Or.inl h
        · exact Or.inr ⟨t, by simp [ht], h1, h2⟩
      · rintro (h | ⟨t, ht, h1, h2⟩)
        · exact Or.inl h
        · rcases List.mem_cons.mp ht with h3 | h3
          · exfalso
            apply hacc
            rw [h3] at h1
            exact h1
          · exact Or.inr ⟨t, h3, h1, h2⟩

theorem liqTierLoop_fst_valuesSum (current_price long_oi short_oi min_price max_price : ℚ)
    (ts : List (ℕ × ℚ)) :
    ∀ (mL mS : List (ℤ × ℚ)),
      valuesSum (liqTierLoop current_price long_oi short_oi min_price max_price ts (mL, mS)).1
        = valuesSum mL + ((ts.map fun t =>
            if longTierAccepted current_price min_price t.1 then long_oi * t.2 else 0).sum) := by
  induction ts with
  | nil => intro mL mS; simp [liqTierLoop]
  | cons t rest ih =>
    obtain ⟨lev, w⟩ := t
    intro mL mS
    simp only [liqTierLoop, List.map_cons, List.sum_cons]
    by_cases hacc : longTierAccepted current_price min_price lev
    · rw [if_pos hacc, if_pos hacc, ih, valuesSum_dictAdd]
      ring
    · rw [if_neg hacc, if_neg hacc, ih]
      ring

theorem liqTierLoop_snd_valuesSum (current_price long_oi short_oi min_price max_price : ℚ)
    (ts : List (ℕ × ℚ)) :
    ∀ (mL mS : List (ℤ × ℚ)),
      valuesSum (liqTierLoop current_price long_oi short_oi min_price max_price ts (mL, mS)).2
        = valuesSum mS + ((ts.map fun t =>
            if shortTierAccepted current_price max_price t.1 then short_oi * t.2 else 0).sum) := by
  induction ts with
  | nil => intro mL mS; simp [liqTierLoop]
  | cons t rest ih =>
    obtain ⟨lev, w⟩ := t
    intro mL mS
    simp only [liqTierLoop, List.map_cons, List.sum_cons]
    by_cases hacc : shortTierAccepted current_price max_price lev
    · rw [if_pos hacc, if_pos hacc, ih, valuesSum_dictAdd]
      ring
    · rw [if_neg hacc, if_neg hacc, ih]
      ring

/-! ## `backend/scoring/fragility.py`

`numpy.std` takes a square root, so the fragility module is embedded over
`ℝ` (noncomputable, but branch conditions still evaluate on concrete
rational inputs). -/

/-- `np.mean(xs)`. -/
noncomputable def npMean (xs : List ℝ) : ℝ := xs.sum / xs.length

/-- `np.std(xs)`: population standard deviation,
`sqrt(mean((x - mean)^2))`. -/
noncomputable def npStd (xs : List ℝ) : ℝ :=
  Real.sqrt ((xs.map fun x => (x - npMean xs)^2).sum / xs.length)

/-- `calculate_L_d(open_interest_usd, depth_2pct_usd)`. -/
noncomputable def calculate_L_d (open_interest_usd depth_2pct_usd : ℝ) : ℝ :=
  if depth_2pct_usd ≤ 0 then 100
  else min 100 (open_interest_usd / (depth_2pct_usd * 10))

/-- `calculate_F_sigma(current_funding, funding_7d)`. -/
noncomputable def calculate_F_sigma (current_funding : ℝ) (funding_7d : List ℝ) : ℝ :=
  if funding_7d.length < 3 then 50
  else
    let sma_7d := npMean funding_7d
    let std_7d := npStd funding_7d
    if std_7d = 0 then 50
    else min 100 (|current_funding - sma_7d| / std_7d * 20)

/-- `calculate_B_z(spot_price, perp_price)`. -/
noncomputable def calculate_B_z (spot_price perp_price : ℝ) : ℝ :=
  if spot_price ≤ 0 then 50
  else min 100 (|spot_price - perp_price| / spot_price * 1000)

/-- Python `round(x, 1)`. -/
noncomputable def round1 (x : ℝ) : ℝ := (pyRound (x * 10) : ℝ) / 10

/-- The result dict of `calculate_fragility_score` (the presentation-only
`emoji`, `color`, `formula`, component `label`/`description` strings are
omitted; the three `components.*.value` entries are kept). -/
structure FragilityScoreResult where
  score : ℝ
  level : String
  L_d_value : ℝ
  F_sigma_value : ℝ
  B_z_value : ℝ

/-- `calculate_fragility_score(open_interest_usd, depth_2pct_usd,
current_funding, funding_7d, spot_price, perp_price)`. -/
noncomputable def calculate_fragility_score (open_interest_usd depth_2pct_usd
    current_funding : ℝ) (funding_7d : List ℝ) (spot_price perp_price : ℝ) :
    FragilityScoreResult :=
  let L_d := calculate_L_d open_interest_usd depth_2pct_usd
  let F_sigma := calculate_F_sigma current_funding funding_7d
  let B_z := calculate_B_z spot_price perp_price
  let phi := (L_d + F_sigma + B_z) / 3
  let level :=
    if phi ≤ 25 then "Stable"
    else if phi ≤ 50 then "Caution"
    else if phi ≤ 75 then "Fragile"
    else "Critical"
  { score := round1 phi
    level := level
    L_d_value := round1 L_d
    F_sigma_value := round1 F_sigma
    B_z_value := round1 B_z }

/-! ## Major zones and the complete heatmap -/

/-- One entry of the `all_liqs`/`major_zones` list built by
`get_major_liquidation_zones`. -/
structure LiqZone where
  price : ℤ
  usd_value : ℚ
  side : String
  distance_pct : ℚ
deriving Repr, DecidableEq

/-- One zone dict as built inside `get_major_liquidation_zones`:
`distance_pct = abs(price - current_price) / current_price * 100`. -/
def zoneOf (side : String) (current_price : ℚ) (kv : ℤ × ℚ) : LiqZone :=
  { price := kv.1
    usd_value := kv.2
    side := side
    distance_pct := |(kv.1 : ℚ) - current_price| / current_price * 100 }

/-- `get_major_liquidation_zones(heatmap, current_price)`: keep the levels
with `usd >= 500e6` from both sides, then sort (stably) by
`distance_pct`.  Python `list.sort` is a stable sort, modelled by
`List.mergeSort`. -/
def get_major_liquidation_zones (h : EstimatedHeatmap) (current_price : ℚ) :
    List LiqZone :=
  let longs := (h.long_liquidations.filter fun kv => 500 * 10^6 ≤ kv.2).map
    (zoneOf "LONG" current_price)
  let shorts := (h.short_liquidations.filter fun kv => 500 * 10^6 ≤ kv.2).map
    (zoneOf "SHORT" current_price)
  (longs ++ shorts).mergeSort fun a b => a.distance_pct ≤ b.distance_pct

/-- The result dict of `calculate_complete_heatmap` (the `timestamp` slot,
set by the caller, and the natural-language `insight` dict are omitted). -/
structure CompleteHeatmap where
  symbol : String
  current_price : ℚ
  fragility : FragilityScoreResult
  estimated_liquidations : EstimatedHeatmap
  major_zones : List LiqZone

/-- `calculate_complete_heatmap(current_price, oi_usd, funding_rate,
depth_2pct, funding_7d, spot_price, perp_price)`. -/
noncomputable def calculate_complete_heatmap (current_price oi_usd funding_rate
    depth_2pct : ℚ) (funding_7d : List ℚ) (spot_price perp_price : ℚ) :
    CompleteHeatmap :=
  let fragility := calculate_fragility_score (oi_usd : ℝ) (depth_2pct : ℝ)
    (funding_rate : ℝ) (funding_7d.map fun x => (x : ℝ)) (spot_price : ℝ) (perp_price : ℝ)
  let heatmap := estimate_liquidation_heatmap current_price oi_usd funding_rate
  let major_zones := get_major_liquidation_zones heatmap current_price
  { symbol := "BTCUSDT"
    current_price := current_price
    fragility := fragility
    estimated_liquidations := heatmap
    major_zones := major_zones.take 5 }

/-! ## Generic Python dict assignment for string keys -/

/-- `d[k] = v` on an insertion-ordered dict with string keys. -/
def pyDictSet {α : Type} : List (String × α) → String → α → List (String × α)
  | [], k, v => [(k, v)]
  | (k', v') :: rest, k, v =>
    if k' = k then (k, v) :: rest else (k', v') :: pyDictSet rest k v

theorem lookup_pyDictSet_same {α : Type} (m : List (String × α)) (k : String) (v : α) :
    (pyDictSet m k v).lookup k = some v := by
  induction m with
  | nil => simp [pyDictSet, List.lookup]
  | cons hd tl ih =>
    obtain ⟨k', v'⟩ := hd
    by_cases h : k' = k
    · subst h
      simp [pyDictSet, List.lookup]
    · rw [pyDictSet, if_neg h]
      rw [List.lookup, beq_eq_false_iff_ne.mpr (Ne.symm h)]
      exact ih

/-! ## `backend/data/fetchers/liquidation.py`: `get_heatmap` caching

The network and computation part of `get_heatmap` is represented by the
outcome of the live-fetch attempt, passed in as data; the cache and the
clock (seconds) are explicit.  Only the provenance tag and the `_cache_ttl`
dict key of the response are modelled, which is all the caching logic reads
or writes. -/

/-- The slice of a `get_heatmap` response that the caching logic touches. -/
structure HeatmapResponse where
  source : String
  cache_ttl_field : Option ℕ
deriving Repr, DecidableEq

/-- What happens inside the `try` block of `get_heatmap` when no fresh cache
entry exists. -/
inductive LiveFetchOutcome where
  | fetchOk      -- all required data arrived; `calculate_complete_heatmap` ran
  | missingData  -- `not all([oi_data, funding_data, prices, depth])`
  | raised       -- an exception escaped the `try` block
deriving Repr, DecidableEq

/-- The response of `_get_fallback_data` (no `_cache_ttl` key). -/
def fallbackResponse : HeatmapResponse :=
  { source := "estimated_fallback", cache_ttl_field := none }

/-- A live result, tagged `binance_live` by `get_heatmap`. -/
def liveResponse : HeatmapResponse :=
  { source := "binance_live", cache_ttl_field := none }

/-- `self._cache_ttl` of `LiquidationFetcher` (300 s). -/
def heatmapCacheTtl : ℕ := 300

/-- `_get_cached(key)`: serve the entry if it is younger than
`self._cache_ttl`.  Note that this reads the fetcher-level constant only;
it never looks at a `_cache_ttl` key stored inside the cached data. -/
def getCachedHeatmap (cache : List (String × ℕ × HeatmapResponse))
    (key : String) (now : ℕ) : Option HeatmapResponse :=
  match cache.lookup key with
  | some (cached_time, data) =>
    if now - cached_time < heatmapCacheTtl then some data else none
  | none => none

/-- `get_heatmap(symbol)`: returns the response and the updated cache. -/
def get_heatmap (cache : List (String × ℕ × HeatmapResponse)) (now : ℕ)
    (symbol : String) (outcome : LiveFetchOutcome) :
    HeatmapResponse × List (String × ℕ × HeatmapResponse) :=
  let cache_key := "heatmap_" ++ symbol
  match getCachedHeatmap cache cache_key now with
  | some cached => (cached, cache)
  | none =>
    match outcome with
    | .fetchOk => (liveResponse, pyDictSet cache cache_key (now, liveResponse))
    | .missingData => (fallbackResponse, cache)
    | .raised =>
      let fallback := { fallbackResponse with cache_ttl_field := some 60 }
      (fallback, pyDictSet cache cache_key (now, fallback))

/-! ## `backend/data/utils/rate_limiter.py`: `execute_with_retry`

The operation is modelled by the outcome of each attempt (`ops i` is what
`func` does on the i-th call); `acquire`, the backoff sleeps and the shared
weight counter are time-based side effects with no bearing on the retry
result, and are not modelled. -/

/-- `RateLimitConfig` with its defaults. -/
structure RateLimitConfig where
  max_weight_per_minute : ℕ := 1200
  safe_weight_limit : ℕ := 960
  min_delay_ms : ℚ := 50
  max_retries : ℕ := 3
  retry_delay_base : ℚ := 1

/-- An exception raised by an attempt.  `is_rate_limit` models the
`"429" in str(e) or "rate limit" in ... or "too many requests" in ...`
classification. -/
structure RetryError where
  is_rate_limit : Bool
  msg : String
deriving Repr, DecidableEq

/-- The `for attempt in range(...)` loop of `execute_with_retry` run over
the remaining attempt indices.  Returns (result, last exception, number of
attempts actually executed).  A rate-limit error always continues the
loop; any other error continues only when attempts remain
(`attempt < max_retries - 1`), otherwise the loop breaks. -/
def retryGo {α : Type} (ops : ℕ → Except RetryError α) :
    List ℕ → Option α × Option RetryError × ℕ
  | [] => (none, none, 0)
  | i :: rest =>
    match ops i with
    | .ok v => (some v, none, 1)
    | .error e =>
      if e.is_rate_limit = true ∨ rest ≠ [] then
        let r := retryGo ops rest
        (r.1, r.2.1.or (some e), r.2.2 + 1)
      else (none, some e, 1)

/-- `execute_with_retry(func, endpoint)`: the result is the first success,
or the last exception once attempts are exhausted (with a generic error
when `max_retries = 0` and no attempt ever ran).  Also returns how many
times `func` was invoked. -/
def execute_with_retry {α : Type} (config : RateLimitConfig)
    (ops : ℕ → Except RetryError α) : Except RetryError α × ℕ :=
  match retryGo ops (List.range config.max_retries) with
  | (some v, _, n) => (.ok v, n)
  | (none, some e, n) => (.error e, n)
  | (none, none, n) => (.error ⟨false, "Request failed after retries"⟩, n)

/-! ## `backend/config/sectors.py`: symbol mappings and priority -/

/-- `SYMBOL_MAPPING["binance"]`. -/
def BINANCE_SYMBOLS : List (String × String) :=
  [("BTC", "BTCUSDT"), ("ETH", "ETHUSDT"), ("SOL", "SOLUSDT"), ("BNB", "BNBUSDT"),
   ("XRP", "XRPUSDT"), ("ADA", "ADAUSDT"), ("DOGE", "DOGEUSDT"), ("RENDER", "RENDERUSDT"),
   ("TAO", "TAOUSDT"), ("FET", "FETUSDT"), ("WLD", "WLDUSDT"), ("UNI", "UNIUSDT"),
   ("AAVE", "AAVEUSDT"), ("PENDLE", "PENDLEUSDT"), ("NEAR", "NEARUSDT"), ("APT", "APTUSDT"),
   ("SUI", "SUIUSDT"), ("ARB", "ARBUSDT"), ("OP", "OPUSDT"), ("PEPE", "PEPEUSDT"),
   ("SHIB", "SHIBUSDT"), ("BONK", "BONKUSDT"), ("ZEC", "ZECUSDT"), ("XMR", "XMRUSDT"),
   ("TRX", "TRXUSDT"), ("TON", "TONUSDT"), ("ONDO", "ONDOUSDT"), ("PAXG", "PAXGUSDT"),
   ("JUP", "JUPUSDT"), ("ENA", "ENAUSDT")]

/-- `SYMBOL_MAPPING["okx"]`. -/
def OKX_SYMBOLS : List (String × String) :=
  [("BTC", "BTC-USDT"), ("ETH", "ETH-USDT"), ("SOL", "SOL-USDT"), ("BNB", "BNB-USDT"),
   ("XRP", "XRP-USDT"), ("ADA", "ADA-USDT"), ("DOGE", "DOGE-USDT"), ("RENDER", "RENDER-USDT"),
   ("TAO", "TAO-USDT"), ("FET", "FET-USDT"), ("VIRTUAL", "VIRTUAL-USDT"), ("WLD", "WLD-USDT"),
   ("UNI", "UNI-USDT"), ("AAVE", "AAVE-USDT"), ("NEAR", "NEAR-USDT"), ("APT", "APT-USDT"),
   ("SUI", "SUI-USDT"), ("ARB", "ARB-USDT"), ("OP", "OP-USDT"), ("PEPE", "PEPE-USDT"),
   ("SHIB", "SHIB-USDT"), ("BONK", "BONK-USDT"), ("ZEC", "ZEC-USDT"), ("TRX", "TRX-USDT"),
   ("TON", "TON-USDT"), ("ONDO", "ONDO-USDT"), ("PAXG", "PAXG-USDT"), ("JUP", "JUP-USDT"),
   ("HYPE", "HYPE-USDT")]

/-- `SYMBOL_MAPPING["kucoin"]`. -/
def KUCOIN_SYMBOLS : List (String × String) :=
  [("BTC", "BTC-USDT"), ("ETH", "ETH-USDT"), ("SOL", "SOL-USDT"), ("XRP", "XRP-USDT"),
   ("ADA", "ADA-USDT"), ("DOGE", "DOGE-USDT"), ("RENDER", "RENDER-USDT"), ("FET", "FET-USDT"),
   ("WLD", "WLD-USDT"), ("UNI", "UNI-USDT"), ("AAVE", "AAVE-USDT"), ("NEAR", "NEAR-USDT"),
   ("APT", "APT-USDT"), ("SUI", "SUI-USDT"), ("ARB", "ARB-USDT"), ("OP", "OP-USDT"),
   ("PEPE", "PEPE-USDT"), ("SHIB", "SHIB-USDT"), ("ZEC", "ZEC-USDT"), ("XMR", "XMR-USDT"),
   ("TRX", "TRX-USDT"), ("HYPE", "HYPE-USDT")]

/-- `SYMBOL_MAPPING["coinbase"]`. -/
def COINBASE_SYMBOLS : List (String × String) :=
  [("BTC", "BTC-USD"), ("ETH", "ETH-USD"), ("SOL", "SOL-USD"), ("XRP", "XRP-USD"),
   ("ADA", "ADA-USD"), ("DOGE", "DOGE-USD")]

/-- `SYMBOL_MAPPING`. -/
def SYMBOL_MAPPING : List (String × List (String × String)) :=
  [("binance", BINANCE_SYMBOLS), ("okx", OKX_SYMBOLS),
   ("kucoin", KUCOIN_SYMBOLS), ("coinbase", COINBASE_SYMBOLS)]

/-- `EXCHANGE_PRIORITY`. -/
def EXCHANGE_PRIORITY : List String := ["binance", "okx", "kucoin", "coinbase"]

/-! ## `backend/data/aggregator.py`: `DataAggregator`

Each underlying fetcher is modelled by the outcome of calling it, passed in
as data (`FetchEnv`); the price cache and the clock are explicit. -/

/-- The outcome of one call to an exchange fetcher. -/
inductive FetchOutcome where
  | raises                 -- the fetch raised an exception
  | noData                 -- the fetch returned None (falsy)
  | fetched (price : ℚ)    -- the fetch returned a price dict
deriving Repr, DecidableEq

/-- The slice of a price dict the aggregator manipulates (the aggregator
overwrites `result["coin"]` before caching and returning). -/
structure PriceQuote where
  coin : String
  price : ℚ
deriving Repr, DecidableEq

/-- Outcomes of the four underlying fetchers.  `binance`, `okx` and
`kucoin` are keyed by the exchange-native symbol, `coingecko` by the
logical coin name. -/
structure FetchEnv where
  binance : String → FetchOutcome
  okx : String → FetchOutcome
  kucoin : String → FetchOutcome
  coingecko : String → FetchOutcome

/-- The `if exchange == "binance": ... elif exchange == "okx": ...`
dispatch inside the priority loop.  `none` means the loop body has no
fetcher for this exchange, so `result` stays `None`. -/
def exchangeFetch (env : FetchEnv) (exchange symbol : String) : Option FetchOutcome :=
  if exchange = "binance" then some (env.binance symbol)
  else if exchange = "okx" then some (env.okx symbol)
  else none

/-- The `for exchange in EXCHANGE_PRIORITY` loop of
`fetch_price_with_fallback`.  Returns the first successful quote (if any)
and the trace of exchanges whose fetcher was actually invoked. -/
def tryPriorityExchanges (env : FetchEnv) (coin : String) :
    List String → Option PriceQuote × List String
  | [] => (none, [])
  | exchange :: rest =>
    match ((SYMBOL_MAPPING.lookup exchange).getD []).lookup coin with
    | none => tryPriorityExchanges env coin rest
    | some symbol =>
      match exchangeFetch env exchange symbol with
      | none => tryPriorityExchanges env coin rest
      | some (.fetched price) => (some { coin := coin, price := price }, [exchange])
      | some .raises =>
        let r := tryPriorityExchanges env coin rest
        (r.1, exchange :: r.2)
      | some .noData =>
        let r := tryPriorityExchanges env coin rest
        (r.1, exchange :: r.2)

/-- `self.cache_ttl` of `DataAggregator` (300 s). -/
def aggregatorCacheTtl : ℚ := 300

/-- `fetch_price_with_fallback(coin)`: returns the quote (or `None`), the
trace of fetchers invoked, and the updated price cache.  Every fetcher
call in the source is wrapped in `try/except`, so no exception escapes;
total failure is the `none` result. -/
def fetch_price_with_fallback (env : FetchEnv)
    (price_cache : List (String × ℚ × PriceQuote)) (now : ℚ) (coin : String) :
    Option PriceQuote × List String × List (String × ℚ × PriceQuote) :=
  let cache_key := "price_" ++ coin
  let fresh :=
    match price_cache.lookup cache_key with
    | some (ts, data) => if now - ts < aggregatorCacheTtl then some data else none
    | none => none
  match fresh with
  | some data => (some data, [], price_cache)
  | none =>
    match tryPriorityExchanges env coin EXCHANGE_PRIORITY with
    | (some q, trace) => (some q, trace, pyDictSet price_cache cache_key (now, q))
    | (none, trace) =>
      let afterKucoin :=
        match KUCOIN_SYMBOLS.lookup coin with
        | some kucoin_symbol =>
          match env.kucoin kucoin_symbol with
          | .fetched price => (some { coin := coin, price := price }, trace ++ ["kucoin"])
          | .raises => (none, trace ++ ["kucoin"])
          | .noData => (none, trace ++ ["kucoin"])
        | none => (none, trace)
      match afterKucoin with
      | (some q, trace2) => (some q, trace2, pyDictSet price_cache cache_key (now, q))
      | (none, trace2) =>
        match env.coingecko coin with
        | .fetched price =>
          let q : PriceQuote := { coin := coin, price := price }
          (some q, trace2 ++ ["coingecko"], pyDictSet price_cache cache_key (now, q))
        | .raises => (none, trace2 ++ ["coingecko"], price_cache)
        | .noData => (none, trace2 ++ ["coingecko"], price_cache)

/-- `fetch_multiple_prices(coins)`: one `fetch_price_with_fallback` per
coin from the same starting cache (the calls run concurrently via
`asyncio.gather`), partitioned into `prices` and `errors`. -/
def fetch_multiple_prices (env : FetchEnv)
    (price_cache : List (String × ℚ × PriceQuote)) (now : ℚ) (coins : List String) :
    List (String × PriceQuote) × List (String × String) :=
  let results := coins.map fun coin =>
    (coin, (fetch_price_with_fallback env price_cache now coin).1)
  (results.filterMap fun r =>
      match r.2 with
      | some q => some (r.1, q)
      | none => none,
   results.filterMap fun r =>
      match r.2 with
      | some _ => none
      | none => some (r.1, "No data available"))

/-! ## `backend/data/collectors/liquidation_ws.py`: `LiquidationMemoryStore`

Timestamps are seconds (`ℚ`); `timedelta(hours=hours)` is `3600 * hours`. -/

/-- A parsed liquidation event (the `raw_data` echo and the `hour_bucket`
presentation field are omitted). -/
structure LiquidationEvent where
  timestamp : ℚ
  symbol : String
  side : String
  price : ℚ
  quantity : ℚ
  usd_value : ℚ
  price_level : ℤ
deriving Repr, DecidableEq

/-- `LiquidationMemoryStore.add`: append, then trim to
`self.liquidations[-self.max_size:]` when over capacity.  Python
`l[-k:]` is the last `k` elements when `k > 0`, but the WHOLE list when
`k = 0` (since `l[-0:]` is `l[0:]`). -/
def storeAdd (max_size : ℕ) (liquidations : List LiquidationEvent)
    (liquidation : LiquidationEvent) : List LiquidationEvent :=
  let l := liquidations ++ [liquidation]
  if l.length > max_size then
    if max_size = 0 then l else l.drop (l.length - max_size)
  else l

/-- `get_recent(hours)`: keep events with `timestamp > now - timedelta(hours)`. -/
def get_recent (liquidations : List LiquidationEvent) (now : ℚ) (hours : ℕ) :
    List LiquidationEvent :=
  let cutoff := now - 3600 * hours
  liquidations.filter fun liq => cutoff < liq.timestamp

/-- `get_by_symbol(symbol, hours)`. -/
def get_by_symbol (liquidations : List LiquidationEvent) (symbol : String)
    (now : ℚ) (hours : ℕ) : List LiquidationEvent :=
  let cutoff := now - 3600 * hours
  liquidations.filter fun liq => liq.symbol = symbol ∧ cutoff < liq.timestamp

/-- The bucketing loop of `get_aggregated`. -/
def aggLoop : List LiquidationEvent → List (ℤ × ℚ) × List (ℤ × ℚ) →
    List (ℤ × ℚ) × List (ℤ × ℚ)
  | [], ms => ms
  | liq :: rest, (long_liqs, short_liqs) =>
    if liq.side = "LONG" then
      aggLoop rest (dictAdd long_liqs liq.price_level liq.usd_value, short_liqs)
    else
      aggLoop rest (long_liqs, dictAdd short_liqs liq.price_level liq.usd_value)

/-- The result dict of `get_aggregated` (constant `data_type` omitted). -/
structure AggregatedLiquidations where
  long_liquidations : List (ℤ × ℚ)
  short_liquidations : List (ℤ × ℚ)
  period_hours : ℕ
  count : ℕ
  total_usd : ℚ
deriving Repr, DecidableEq

/-- `get_aggregated(symbol, hours)`. -/
def get_aggregated (liquidations : List LiquidationEvent) (symbol : String)
    (now : ℚ) (hours : ℕ) : AggregatedLiquidations :=
  let matching := get_by_symbol liquidations symbol now hours
  let maps := aggLoop matching ([], [])
  { long_liquidations := maps.1
    short_liquidations := maps.2
    period_hours := hours
    count := matching.length
    total_usd := (matching.map fun liq => liq.usd_value).sum }

/-! ## Fragility lemmas -/

theorem calculate_L_d_bounds (open_interest_usd depth_2pct_usd : ℝ)
    (hoi : 0 ≤ open_interest_usd) :
    0 ≤ calculate_L_d open_interest_usd depth_2pct_usd ∧
      calculate_L_d open_interest_usd depth_2pct_usd ≤ 100 := by
  unfold calculate_L_d
  split
  · norm_num
  · rename_i h
    have hd : 0 < depth_2pct_usd := not_le.mp h
    constructor
    · exact le_min (by norm_num) (div_nonneg hoi (by linarith))
    · exact min_le_left _ _

theorem calculate_F_sigma_bounds (current_funding : ℝ) (funding_7d : List ℝ) :
    0 ≤ calculate_F_sigma current_funding funding_7d ∧
      calculate_F_sigma current_funding funding_7d ≤ 100 := by
  unfold calculate_F_sigma
  split
  · norm_num
  · simp only []
    split
    · norm_num
    · constructor
      · refine le_min (by norm_num) ?_
        refine mul_nonneg (div_nonneg (abs_nonneg _) ?_) (by norm_num)
        exact Real.sqrt_nonneg _
      · exact min_le_left _ _

theorem calculate_B_z_bounds (spot_price perp_price : ℝ) :
    0 ≤ calculate_B_z spot_price perp_price ∧
      calculate_B_z spot_price perp_price ≤ 100 := by
  unfold calculate_B_z
  split
  · norm_num
  · rename_i h
    have hs : 0 < spot_price := not_le.mp h
    constructor
    · exact le_min (by norm_num) (mul_nonneg (div_nonneg (abs_nonneg _) hs.le) (by norm_num))
    · exact min_le_left _ _

theorem round1_bounds (x : ℝ) (h0 : 0 ≤ x) (h100 : x ≤ 100) :
    0 ≤ round1 x ∧ round1 x ≤ 100 := by
  unfold round1
  have hlow : (0 : ℤ) ≤ pyRound (x * 10) := by
    have h1 : (0 : ℤ) = ⌊(0 : ℝ)⌋ := by norm_num
    calc (0 : ℤ) = ⌊(0 : ℝ)⌋ := h1
    _ ≤ ⌊x * 10⌋ := Int.floor_mono (by linarith)
    _ ≤ pyRound (x * 10) := floor_le_pyRound _
  have hhigh : pyRound (x * 10) ≤ 1000 := by
    calc pyRound (x * 10) ≤ ⌈x * 10⌉ := pyRound_le_ceil _
    _ ≤ ⌈(1000 : ℝ)⌉ := Int.ceil_mono (by linarith)
    _ = 1000 := by norm_num
  constructor
  · have : (0 : ℝ) ≤ (pyRound (x * 10) : ℝ) := by exact_mod_cast hlow
    linarith
  · have : (pyRound (x * 10) : ℝ) ≤ 1000 := by exact_mod_cast hhigh
    linarith

/-- Claim C1: for any input with nonnegative open interest, the three
sub-scores and the composite Φ (their mean) all lie in [0, 100], both as
raw values and as the rounded values in the returned result. -/
theorem claim_C1_fragility_scores_bounded (open_interest_usd depth_2pct_usd
    current_funding : ℝ) (funding_7d : List ℝ) (spot_price perp_price : ℝ)
    (hoi : 0 ≤ open_interest_usd) :
    (0 ≤ calculate_L_d open_interest_usd depth_2pct_usd ∧
      calculate_L_d open_interest_usd depth_2pct_usd ≤ 100) ∧
    (0 ≤ calculate_F_sigma current_funding funding_7d ∧
      calculate_F_sigma current_funding funding_7d ≤ 100) ∧
    (0 ≤ calculate_B_z spot_price perp_price ∧
      calculate_B_z spot_price perp_price ≤ 100) ∧
    (0 ≤ (calculate_L_d open_interest_usd depth_2pct_usd +
        calculate_F_sigma current_funding funding_7d +
        calculate_B_z spot_price perp_price) / 3 ∧
      (calculate_L_d open_interest_usd depth_2pct_usd +
        calculate_F_sigma current_funding funding_7d +
        calculate_B_z spot_price perp_price) / 3 ≤ 100) ∧
    (0 ≤ (calculate_fragility_score open_interest_usd depth_2pct_usd
        current_funding funding_7d spot_price perp_price).score ∧
      (calculate_fragility_score open_interest_usd depth_2pct_usd
        current_funding funding_7d spot_price perp_price).score ≤ 100) ∧
    (0 ≤ (calculate_fragility_score open_interest_usd depth_2pct_usd
        current_funding funding_7d spot_price perp_price).L_d_value ∧
      (calculate_fragility_score open_interest_usd depth_2pct_usd
        current_funding funding_7d spot_price perp_price).L_d_value ≤ 100) ∧
    (0 ≤ (calculate_fragility_score open_interest_usd depth_2pct_usd
        current_funding funding_7d spot_price perp_price).F_sigma_value ∧
      (calculate_fragility_score open_interest_usd depth_2pct_usd
        current_funding funding_7d spot_price perp_price).F_sigma_value ≤ 100) ∧
    (0 ≤ (calculate_fragility_score open_interest_usd depth_2pct_usd
        current_funding funding_7d spot_price perp_price).B_z_value ∧
      (calculate_fragility_score open_interest_usd depth_2pct_usd
        current_funding funding_7d spot_price perp_price).B_z_value ≤ 100) := by
  obtain ⟨hL0, hL1⟩ := calculate_L_d_bounds open_interest_usd depth_2pct_usd hoi
  obtain ⟨hF0, hF1⟩ := calculate_F_sigma_bounds current_funding funding_7d
  obtain ⟨hB0, hB1⟩ := calculate_B_z_bounds spot_price perp_price
  have hphi0 : 0 ≤ (calculate_L_d open_interest_usd depth_2pct_usd +
      calculate_F_sigma current_funding funding_7d +
      calculate_B_z spot_price perp_price) / 3 := by linarith
  have hphi1 : (calculate_L_d open_interest_usd depth_2pct_usd +
      calculate_F_sigma current_funding funding_7d +
      calculate_B_z spot_price perp_price) / 3 ≤ 100 := by linarith
  have hscore : (calculate_fragility_score open_interest_usd depth_2pct_usd
      current_funding funding_7d spot_price perp_price).score
      = round1 ((calculate_L_d open_interest_usd depth_2pct_usd +
        calculate_F_sigma current_funding funding_7d +
        calculate_B_z spot_price perp_price) / 3) := rfl
  have hLv : (calculate_fragility_score open_interest_usd depth_2pct_usd
      current_funding funding_7d spot_price perp_price).L_d_value
      = round1 (calculate_L_d open_interest_usd depth_2pct_usd) := rfl
  have hFv : (calculate_fragility_score open_interest_usd depth_2pct_usd
      current_funding funding_7d spot_price perp_price).F_sigma_value
      = round1 (calculate_F_sigma current_funding funding_7d) := rfl
  have hBv : (calculate_fragility_score open_interest_usd depth_2pct_usd
      current_funding funding_7d spot_price perp_price).B_z_value
      = round1 (calculate_B_z spot_price perp_price) := rfl
  refine ⟨⟨hL0, hL1⟩, ⟨hF0, hF1⟩, ⟨hB0, hB1⟩, ⟨hphi0, hphi1⟩, ?_, ?_, ?_, ?_⟩
  · rw [hscore]
    exact round1_bounds _ hphi0 hphi1
  · rw [hLv]
    exact round1_bounds _ hL0 hL1
  · rw [hFv]
    exact round1_bounds _ hF0 hF1
  · rw [hBv]
    exact round1_bounds _ hB0 hB1

/-- Witness for C1 at a concrete input. -/
theorem claim_C1_fragility_scores_bounded_witness :
    (0 ≤ (0 : ℝ)) ∧
    (0 ≤ calculate_L_d 0 0 ∧ calculate_L_d 0 0 ≤ 100) ∧
    (0 ≤ (calculate_fragility_score 0 0 0 [] 0 0).score ∧
      (calculate_fragility_score 0 0 0 [] 0 0).score ≤ 100) := by
  have h := claim_C1_fragility_scores_bounded 0 0 0 [] 0 0 le_rfl
  exact ⟨le_rfl, h.1, h.2.2.2.2.1⟩

/-- Claim C8 counterexample: at `open_interest_usd = 10`,
`depth_2pct_usd = -1` the code returns 100 (the guard is `depth <= 0`,
not `depth == 0`), while the formula branch the claim asserts for every
nonzero depth evaluates to -1. -/
theorem claim_C8_counterexample :
    calculate_L_d 10 (-1) = 100 ∧
      min (100 : ℝ) (10 / ((-1) * 10)) = -1 ∧ (100 : ℝ) ≠ -1 := by
  refine ⟨?_, by norm_num, by norm_num⟩
  unfold calculate_L_d
  norm_num

/-- Claim C8 (amended): `calculate_L_d` is total; it returns exactly 100
whenever `depth_2pct_usd <= 0` (in particular at zero depth, with any
open interest), and `min(100, OI / (depth * 10))` whenever
`depth_2pct_usd > 0`. -/
theorem claim_C8_L_d_total (open_interest_usd depth_2pct_usd : ℝ) :
    (depth_2pct_usd ≤ 0 → calculate_L_d open_interest_usd depth_2pct_usd = 100) ∧
    (0 < depth_2pct_usd → calculate_L_d open_interest_usd depth_2pct_usd
      = min 100 (open_interest_usd / (depth_2pct_usd * 10))) := by
  constructor
  · intro h
    unfold calculate_L_d
    rw [if_pos h]
  · intro h
    unfold calculate_L_d
    rw [if_neg (not_le.mpr h)]

/-- Witness for C8 at concrete inputs: zero depth with positive OI gives
exactly 100, positive depth gives the min formula. -/
theorem claim_C8_L_d_total_witness :
    calculate_L_d 5 0 = 100 ∧ calculate_L_d 5 1 = min 100 (5 / (1 * 10)) :=
  ⟨(claim_C8_L_d_total 5 0).1 (by norm_num),
   (claim_C8_L_d_total 5 1).2 (by norm_num)⟩

/-- Claim C9: `calculate_F_sigma` returns exactly 50 whenever the funding
history has fewer than 3 entries or has zero variance, regardless of the
current funding value. -/
theorem claim_C9_F_sigma_neutral (current_funding : ℝ) (funding_7d : List ℝ)
    (h : funding_7d.length < 3 ∨
      ((funding_7d.map fun x => (x - npMean funding_7d)^2).sum
        / (funding_7d.length : ℝ)) = 0) :
    calculate_F_sigma current_funding funding_7d = 50 := by
  unfold calculate_F_sigma
  rcases h with h | h
  · rw [if_pos h]
  · by_cases hlen : funding_7d.length < 3
    · rw [if_pos hlen]
    · rw [if_neg hlen]
      have hstd : npStd funding_7d = 0 := by
        unfold npStd
        rw [h, Real.sqrt_zero]
      simp [hstd]

/-- Witness for C9: the empty history (fewer than 3 entries) gives 50 even
for an extreme current funding value. -/
theorem claim_C9_F_sigma_neutral_witness :
    (([] : List ℝ).length < 3 ∨
      ((([] : List ℝ).map fun x => (x - npMean [])^2).sum
        / (([] : List ℝ).length : ℝ)) = 0) ∧
    calculate_F_sigma 1000000 [] = 50 := by
  have hlen : ([] : List ℝ).length < 3 := by norm_num
  exact ⟨Or.inl hlen, claim_C9_F_sigma_neutral 1000000 [] (Or.inl hlen)⟩

/-- Claim C2 counterexample: with `price_range_pct = 0.18`, the 5x long
liquidation price `100000 * (1 - 0.9/5)` equals the lower range bound
`100000 * (1 - 0.18)` exactly, so it is NOT strictly between the bound and
the current price, yet the code (whose test is `min_price <= p`) still
contributes `long_oi * weight = 5e8 * 0.10` to bucket 82000. -/
theorem claim_C2_counterexample :
    calculate_liquidation_price 100000 5 true = 100000 * (1 - 18/100) ∧
    ((estimate_liquidation_heatmap 100000 (10^9) 0 (18/100)).long_liquidations.lookup 82000)
      = some (5 * 10^7) := by
  constructor
  · norm_num [calculate_liquidation_price]
  · norm_num [estimate_liquidation_heatmap, liqTierLoop, LEVERAGE_DISTRIBUTION,
      estimate_long_short_split, calculate_liquidation_price, longTierAccepted,
      shortTierAccepted, priceBucket, pyRound, Int.fract, round_eq, dictAdd,
      dictSet, dictGetD, List.lookup]

/-- Claim C2 (amended): a leverage tier contributes to the long map iff
its liquidation price satisfies `min_price <= p < current_price`
(inclusive at the range bound, strict at the current price), and to the
short map iff `current_price < p <= max_price`; the value stored at a
bucket is the sum of `side_OI * tier_weight` over the tiers routed to it. -/
theorem claim_C2_heatmap_level_characterization
    (current_price oi_usd funding_rate price_range_pct : ℚ)
    (hcp : 0 < current_price) (hoi : 0 ≤ oi_usd) (hpr : 0 < price_range_pct) (l : ℤ) :
    (((estimate_liquidation_heatmap current_price oi_usd funding_rate
        price_range_pct).long_liquidations.lookup l).isSome
      ↔ ∃ t ∈ LEVERAGE_DISTRIBUTION,
          longTierAccepted current_price (current_price * (1 - price_range_pct)) t.1 ∧
          priceBucket (calculate_liquidation_price current_price t.1 true) = l) ∧
    (dictGetD (estimate_liquidation_heatmap current_price oi_usd funding_rate
        price_range_pct).long_liquidations l 0
      = longContribSum current_price
          (oi_usd * (estimate_long_short_split funding_rate).1)
          (current_price * (1 - price_range_pct)) LEVERAGE_DISTRIBUTION l) ∧
    (((estimate_liquidation_heatmap current_price oi_usd funding_rate
        price_range_pct).short_liquidations.lookup l).isSome
      ↔ ∃ t ∈ LEVERAGE_DISTRIBUTION,
          shortTierAccepted current_price (current_price * (1 + price_range_pct)) t.1 ∧
          priceBucket (calculate_liquidation_price current_price t.1 false) = l) ∧
    (dictGetD (estimate_liquidation_heatmap current_price oi_usd funding_rate
        price_range_pct).short_liquidations l 0
      = shortContribSum current_price
          (oi_usd * (estimate_long_short_split funding_rate).2)
          (current_price * (1 + price_range_pct)) LEVERAGE_DISTRIBUTION l) := by
  have e1 : (estimate_liquidation_heatmap current_price oi_usd funding_rate
      price_range_pct).long_liquidations
      = (liqTierLoop current_price
          (oi_usd * (estimate_long_short_split funding_rate).1)
          (oi_usd * (estimate_long_short_split funding_rate).2)
          (current_price * (1 - price_range_pct))
          (current_price * (1 + price_range_pct))
          LEVERAGE_DISTRIBUTION ([], [])).1 := rfl
  have e2 : (estimate_liquidation_heatmap current_price oi_usd funding_rate
      price_range_pct).short_liquidations
      = (liqTierLoop current_price
          (oi_usd * (estimate_long_short_split funding_rate).1)
          (oi_usd * (estimate_long_short_split funding_rate).2)
          (current_price * (1 - price_range_pct))
          (current_price * (1 + price_range_pct))
          LEVERAGE_DISTRIBUTION ([], [])).2 := rfl
  refine ⟨?_, ?_, ?_, ?_⟩
  · rw [e1, liqTierLoop_fst_isSome]
    simp [List.lookup]
  · rw [e1, liqTierLoop_fst_getD]
    simp [dictGetD, List.lookup]
  · rw [e2, liqTierLoop_snd_isSome]
    simp [List.lookup]
  · rw [e2, liqTierLoop_snd_getD]
    simp [dictGetD, List.lookup]

/-- Witness for C2 at scenario-A inputs (`current_price=95000`,
`oi_usd=5e9`, `funding_rate=0.0006`, default 20 percent range), queried at
bucket 86000. -/
theorem claim_C2_heatmap_level_characterization_witness :
    (0 : ℚ) < 95000 ∧ (0 : ℚ) ≤ 5000000000 ∧ (0 : ℚ) < 20/100 ∧
    dictGetD (estimate_liquidation_heatmap 95000 5000000000 (6/10000)
        (20/100)).long_liquidations 86000 0
      = longContribSum 95000 (5000000000 * (estimate_long_short_split (6/10000)).1)
          (95000 * (1 - 20/100)) LEVERAGE_DISTRIBUTION 86000 :=
  ⟨by norm_num, by norm_num, by norm_num,
   (claim_C2_heatmap_level_characterization 95000 5000000000 (6/10000) (20/100)
      (by norm_num) (by norm_num) (by norm_num) 86000).2.1⟩

theorem estimate_long_short_split_facts (funding_rate : ℚ) :
    0 ≤ (estimate_long_short_split funding_rate).1 ∧
    0 ≤ (estimate_long_short_split funding_rate).2 ∧
    (estimate_long_short_split funding_rate).1
      + (estimate_long_short_split funding_rate).2 = 1 := by
  unfold estimate_long_short_split
  split_ifs <;> norm_num

theorem ite_nonneg_le (c : Prop) [Decidable c] (a : ℚ) (h : 0 ≤ a) :
    0 ≤ (if c then a else 0) ∧ (if c then a else 0) ≤ a := by
  split
  · exact ⟨h, le_rfl⟩
  · exact ⟨le_rfl, h⟩

/-- Claim C10: the total estimated USD at risk on both sides never exceeds
the open interest, because the long/short shares sum to 1 and the leverage
tier weights sum to 1. -/
theorem claim_C10_total_at_risk_le_oi
    (current_price oi_usd funding_rate price_range_pct : ℚ)
    (hcp : 0 < current_price) (hoi : 0 ≤ oi_usd) :
    (estimate_liquidation_heatmap current_price oi_usd funding_rate
        price_range_pct).total_long_at_risk
      + (estimate_liquidation_heatmap current_price oi_usd funding_rate
        price_range_pct).total_short_at_risk ≤ oi_usd := by
  obtain ⟨hs1, hs2, hsum⟩ := estimate_long_short_split_facts funding_rate
  have hL : 0 ≤ oi_usd * (estimate_long_short_split funding_rate).1 :=
    mul_nonneg hoi hs1
  have hS : 0 ≤ oi_usd * (estimate_long_short_split funding_rate).2 :=
    mul_nonneg hoi hs2
  have e1 : (estimate_liquidation_heatmap current_price oi_usd funding_rate
      price_range_pct).total_long_at_risk
      = valuesSum (liqTierLoop current_price
          (oi_usd * (estimate_long_short_split funding_rate).1)
          (oi_usd * (estimate_long_short_split funding_rate).2)
          (current_price * (1 - price_range_pct))
          (current_price * (1 + price_range_pct))
          LEVERAGE_DISTRIBUTION ([], [])).1 := rfl
  have e2 : (estimate_liquidation_heatmap current_price oi_usd funding_rate
      price_range_pct).total_short_at_risk
      = valuesSum (liqTierLoop current_price
          (oi_usd * (estimate_long_short_split funding_rate).1)
          (oi_usd * (estimate_long_short_split funding_rate).2)
          (current_price * (1 - price_range_pct))
          (current_price * (1 + price_range_pct))
          LEVERAGE_DISTRIBUTION ([], [])).2 := rfl
  rw [e1, e2, liqTierLoop_fst_valuesSum, liqTierLoop_snd_valuesSum]
  simp only [LEVERAGE_DISTRIBUTION, List.map_cons, List.map_nil, List.sum_cons,
    List.sum_nil, valuesSum, List.map_nil, List.sum_nil]
  have w1 := ite_nonneg_le (longTierAccepted current_price
    (current_price * (1 - price_range_pct)) 5)
    (oi_usd * (estimate_long_short_split funding_rate).1 * (10/100))
    (mul_nonneg hL (by norm_num))
  have w2 := ite_nonneg_le (longTierAccepted current_price
    (current_price * (1 - price_range_pct)) 10)
    (oi_usd * (estimate_long_short_split funding_rate).1 * (25/100))
    (mul_nonneg hL (by norm_num))
  have w3 := ite_nonneg_le (longTierAccepted current_price
    (current_price * (1 - price_range_pct)) 20)
    (oi_usd * (estimate_long_short_split funding_rate).1 * (30/100))
    (mul_nonneg hL (by norm_num))
  have w4 := ite_nonneg_le (longTierAccepted current_price
    (current_price * (1 - price_range_pct)) 50)
    (oi_usd * (estimate_long_short_split funding_rate).1 * (25/100))
    (mul_nonneg hL (by norm_num))
  have w5 := ite_nonneg_le (longTierAccepted current_price
    (current_price * (1 - price_range_pct)) 100)
    (oi_usd * (estimate_long_short_split funding_rate).1 * (10/100))
    (mul_nonneg hL (by norm_num))
  have v1 := ite_nonneg_le (shortTierAccepted current_price
    (current_price * (1 + price_range_pct)) 5)
    (oi_usd * (estimate_long_short_split funding_rate).2 * (10/100))
    (mul_nonneg hS (by norm_num))
  have v2 := ite_nonneg_le (shortTierAccepted current_price
    (current_price * (1 + price_range_pct)) 10)
    (oi_usd * (estimate_long_short_split funding_rate).2 * (25/100))
    (mul_nonneg hS (by norm_num))
  have v3 := ite_nonneg_le (shortTierAccepted current_price
    (current_price * (1 + price_range_pct)) 20)
    (oi_usd * (estimate_long_short_split funding_rate).2 * (30/100))
    (mul_nonneg hS (by norm_num))
  have v4 := ite_nonneg_le (shortTierAccepted current_price
    (current_price * (1 + price_range_pct)) 50)
    (oi_usd * (estimate_long_short_split funding_rate).2 * (25/100))
    (mul_nonneg hS (by norm_num))
  have v5 := ite_nonneg_le (shortTierAccepted current_price
    (current_price * (1 + price_range_pct)) 100)
    (oi_usd * (estimate_long_short_split funding_rate).2 * (10/100))
    (mul_nonneg hS (by norm_num))
  have hoibound : oi_usd * (estimate_long_short_split funding_rate).1
      + oi_usd * (estimate_long_short_split funding_rate).2 = oi_usd := by
    have : oi_usd * ((estimate_long_short_split funding_rate).1
        + (estimate_long_short_split funding_rate).2) = oi_usd * 1 := by
      rw [hsum]
    linarith [this]
  nlinarith [w1.2, w2.2, w3.2, w4.2, w5.2, v1.2, v2.2, v3.2, v4.2, v5.2, hoibound]

/-- Witness for C10 at scenario-A inputs. -/
theorem claim_C10_total_at_risk_le_oi_witness :
    (0 : ℚ) < 95000 ∧ (0 : ℚ) ≤ 5000000000 ∧
    (estimate_liquidation_heatmap 95000 5000000000 (6/10000)
        (20/100)).total_long_at_risk
      + (estimate_liquidation_heatmap 95000 5000000000 (6/10000)
        (20/100)).total_short_at_risk ≤ 5000000000 :=
  ⟨by norm_num, by norm_num,
   claim_C10_total_at_risk_le_oi 95000 5000000000 (6/10000) (20/100)
     (by norm_num) (by norm_num)⟩

/-- Claim C3 counterexample: a bucket holding exactly $500M does NOT
exceed $500M, yet `get_major_liquidation_zones` returns it (the code test
is `usd >= 500e6`, while its own comment says `> $500M`). -/
theorem claim_C3_counterexample :
    get_major_liquidation_zones
      { long_liquidations := [(86000, 500 * 10^6)]
        short_liquidations := []
        total_long_at_risk := 500 * 10^6
        total_short_at_risk := 0
        methodology_long_share := 1/2
        methodology_short_share := 1/2 } 95000
      = [{ price := 86000, usd_value := 500 * 10^6, side := "LONG",
           distance_pct := |(86000 : ℚ) - 95000| / 95000 * 100 }] ∧
    ¬ ((500 * 10^6 : ℚ) > 500 * 10^6) := by
  constructor
  · norm_num [get_major_liquidation_zones, List.filter, zoneOf, LiqZone.mk.injEq]
  · norm_num

theorem zoneDistanceLe_trans (a b c : LiqZone) :
    (decide (a.distance_pct ≤ b.distance_pct)) = true →
    (decide (b.distance_pct ≤ c.distance_pct)) = true →
    (decide (a.distance_pct ≤ c.distance_pct)) = true := by
  simp only [decide_eq_true_eq]
  exact le_trans

theorem zoneDistanceLe_total (a b : LiqZone) :
    ((decide (a.distance_pct ≤ b.distance_pct))
      || (decide (b.distance_pct ≤ a.distance_pct))) = true := by
  simp only [Bool.or_eq_true, decide_eq_true_eq]
  exact le_total _ _

/-- Claim C3 (amended): `get_major_liquidation_zones` returns exactly the
buckets (from either side) whose value is AT LEAST $500M (the code
comparison is `>=`, not strictly greater), as a permutation of the
filtered long entries followed by the filtered short entries, sorted
ascending by percentage distance from the current price; and
`calculate_complete_heatmap` surfaces only the first 5 of them. -/
theorem claim_C3_major_zones (h : EstimatedHeatmap)
    (current_price oi_usd funding_rate depth_2pct : ℚ) (funding_7d : List ℚ)
    (spot_price perp_price : ℚ) (hcp : 0 < current_price) :
    (get_major_liquidation_zones h current_price).Perm
      (((h.long_liquidations.filter fun kv => 500 * 10^6 ≤ kv.2).map
          (zoneOf "LONG" current_price)) ++
        ((h.short_liquidations.filter fun kv => 500 * 10^6 ≤ kv.2).map
          (zoneOf "SHORT" current_price))) ∧
    (get_major_liquidation_zones h current_price).Pairwise
      (fun a b => a.distance_pct ≤ b.distance_pct) ∧
    (calculate_complete_heatmap current_price oi_usd funding_rate depth_2pct
        funding_7d spot_price perp_price).major_zones
      = (get_major_liquidation_zones
          (estimate_liquidation_heatmap current_price oi_usd funding_rate)
          current_price).take 5 := by
  refine ⟨?_, ?_, rfl⟩
  · exact List.mergeSort_perm _ _
  · have hs := List.sorted_mergeSort zoneDistanceLe_trans zoneDistanceLe_total
      (((h.long_liquidations.filter fun kv => 500 * 10^6 ≤ kv.2).map
          (zoneOf "LONG" current_price)) ++
        ((h.short_liquidations.filter fun kv => 500 * 10^6 ≤ kv.2).map
          (zoneOf "SHORT" current_price)))
    refine List.Pairwise.imp ?_ hs
    intro a b hab
    simpa using hab

/-- Witness for C3 at a concrete heatmap and current price. -/
theorem claim_C3_major_zones_witness :
    (0 : ℚ) < 95000 ∧
    (get_major_liquidation_zones
      { long_liquidations := [(86000, 6 * 10^8)]
        short_liquidations := [(100000, 7 * 10^8)]
        total_long_at_risk := 6 * 10^8
        total_short_at_risk := 7 * 10^8
        methodology_long_share := 1/2
        methodology_short_share := 1/2 } 95000).Pairwise
      (fun a b => a.distance_pct ≤ b.distance_pct) :=
  ⟨by norm_num,
   (claim_C3_major_zones
      { long_liquidations := [(86000, 6 * 10^8)]
        short_liquidations := [(100000, 7 * 10^8)]
        total_long_at_risk := 6 * 10^8
        total_short_at_risk := 7 * 10^8
        methodology_long_share := 1/2
        methodology_short_share := 1/2 }
      95000 0 0 0 [] 0 0 (by norm_num)).2.1⟩

/-- Claim C4 (code bug): after the exception path caches the fallback at
`t = 0` (with its dead `_cache_ttl = 60` data field), a `get_heatmap` call
at `t = 120` — more than 60 seconds later, with live data available —
still returns the cached fallback, because `_get_cached` compares against
the fetcher-wide 300 s TTL and never reads the stored `_cache_ttl` field.
Also, the missing-data fallback path does not cache its fallback at all. -/
theorem claim_C4_fallback_ttl_not_honored :
    (get_heatmap [] 0 "BTCUSDT" .raised).1
      = { source := "estimated_fallback", cache_ttl_field := some 60 } ∧
    (get_heatmap (get_heatmap [] 0 "BTCUSDT" .raised).2 120 "BTCUSDT" .fetchOk).1
      = { source := "estimated_fallback", cache_ttl_field := some 60 } ∧
    (get_heatmap (get_heatmap [] 0 "BTCUSDT" .raised).2 120 "BTCUSDT" .fetchOk).1.source
      ≠ "binance_live" ∧
    (get_heatmap [] 0 "BTCUSDT" .missingData).1.source = "estimated_fallback" ∧
    (get_heatmap [] 0 "BTCUSDT" .missingData).2 = [] := by
  refine ⟨rfl, ?_, ?_, rfl, rfl⟩ <;> decide

/-- `Except.isOk` as a plain function on the retry outcome. -/
def attemptSucceeds {α : Type} : Except RetryError α → Bool
  | .ok _ => true
  | .error _ => false

theorem retryGo_calls_le {α : Type} (ops : ℕ → Except RetryError α) :
    ∀ l : List ℕ, (retryGo ops l).2.2 ≤ l.length := by
  intro l
  induction l with
  | nil => simp [retryGo]
  | cons i rest ih =>
    simp only [retryGo]
    cases ops i with
    | ok v => simp
    | error e =>
      simp only []
      split
      · simpa using Nat.add_le_add_right ih 1
      · simp

theorem retryGo_first_ok {α : Type} (ops : ℕ → Except RetryError α) (v : α) :
    ∀ (l₁ : List ℕ) (k : ℕ) (l₂ : List ℕ),
      (∀ i ∈ l₁, attemptSucceeds (ops i) = false) → ops k = .ok v →
      (retryGo ops (l₁ ++ k :: l₂)).1 = some v ∧
        (retryGo ops (l₁ ++ k :: l₂)).2.2 = l₁.length + 1 := by
  intro l₁
  induction l₁ with
  | nil =>
    intro k l₂ _ hk
    simp [retryGo, hk]
  | cons i rest ih =>
    intro k l₂ hfail hk
    have hi : attemptSucceeds (ops i) = false := hfail i (by simp)
    have hrest : ∀ j ∈ rest, attemptSucceeds (ops j) = false := by
      intro j hj
      exact hfail j (by simp [hj])
    obtain ⟨e, he⟩ : ∃ e, ops i = .error e := by
      cases hop : ops i with
      | ok w => rw [hop] at hi; simp [attemptSucceeds] at hi
      | error e => exact ⟨e, rfl⟩
    simp only [List.cons_append, retryGo, he, List.append_eq]
    have hne : rest ++ k :: l₂ ≠ [] := by simp
    rw [if_pos (Or.inr hne)]
    obtain ⟨h1, h2⟩ := ih k l₂ hrest hk
    refine ⟨h1, ?_⟩
    simp only [h2, List.length_cons]

theorem retryGo_all_fail {α : Type} (ops : ℕ → Except RetryError α) :
    ∀ (l₁ : List ℕ) (k : ℕ) (e : RetryError),
      (∀ i ∈ l₁ ++ [k], attemptSucceeds (ops i) = false) → ops k = .error e →
      retryGo ops (l₁ ++ [k]) = (none, some e, l₁.length + 1) := by
  intro l₁
  induction l₁ with
  | nil =>
    intro k e _ hk
    simp only [List.nil_append, retryGo, hk]
    split
    · simp [retryGo]
    · simp
  | cons i rest ih =>
    intro k e hfail hk
    have hi : attemptSucceeds (ops i) = false := hfail i (by simp)
    obtain ⟨e', he'⟩ : ∃ e', ops i = .error e' := by
      cases hop : ops i with
      | ok w => rw [hop] at hi; simp [attemptSucceeds] at hi
      | error x => exact ⟨x, rfl⟩
    have hrest : ∀ j ∈ rest ++ [k], attemptSucceeds (ops j) = false := by
      intro j hj
      apply hfail
      simp at hj ⊢
      tauto
    simp only [List.cons_append, retryGo, he', List.append_eq]
    have hne : rest ++ [k] ≠ [] := by simp
    rw [if_pos (Or.inr hne)]
    rw [ih k e hrest hk]
    simp [Option.or]

/-- Claim C5: `execute_with_retry` invokes the operation at most
`max_retries` times; the first success is returned with no further
attempts; if every attempt fails, the exception of the last attempt is
propagated after exactly `max_retries` invocations.  Totality is by
construction (the embedding is a terminating function). -/
theorem claim_C5_execute_with_retry {α : Type} (config : RateLimitConfig)
    (ops : ℕ → Except RetryError α) :
    (execute_with_retry config ops).2 ≤ config.max_retries ∧
    (∀ k v, k < config.max_retries →
      (∀ j, j < k → attemptSucceeds (ops j) = false) → ops k = .ok v →
      (execute_with_retry config ops).1 = .ok v ∧
        (execute_with_retry config ops).2 = k + 1) ∧
    (∀ e, (∀ j, j < config.max_retries → attemptSucceeds (ops j) = false) →
      0 < config.max_retries → ops (config.max_retries - 1) = .error e →
      (execute_with_retry config ops).1 = .error e ∧
        (execute_with_retry config ops).2 = config.max_retries) := by
  have hcalls : (execute_with_retry config ops).2
      = (retryGo ops (List.range config.max_retries)).2.2 := by
    unfold execute_with_retry
    rcases hr : retryGo ops (List.range config.max_retries) with ⟨r1, r2, n⟩
    rcases r1 with _ | v
    · rcases r2 with _ | e <;> simp
    · simp
  refine ⟨?_, ?_, ?_⟩
  · rw [hcalls]
    simpa using retryGo_calls_le ops (List.range config.max_retries)
  · intro k v hk hfail hok
    have h1 : config.max_retries = (config.max_retries - k) + k := by omega
    have h2 : config.max_retries - k = (config.max_retries - k - 1) + 1 := by omega
    have hsplit : List.range config.max_retries
        = List.range' 0 k ++ (k :: List.range' (k + 1) (config.max_retries - k - 1)) := by
      calc List.range config.max_retries
          = List.range' 0 config.max_retries := List.range_eq_range' _
        _ = List.range' 0 ((config.max_retries - k) + k) := by rw [← h1]
        _ = List.range' 0 k ++ List.range' (0 + k) (config.max_retries - k) :=
            (List.range'_append_1 0 k _).symm
        _ = List.range' 0 k ++ List.range' k ((config.max_retries - k - 1) + 1) := by
            rw [Nat.zero_add, ← h2]
        _ = List.range' 0 k ++ (k :: List.range' (k + 1) (config.max_retries - k - 1)) := by
            rw [List.range'_succ]
    have hfail' : ∀ i ∈ List.range' 0 k, attemptSucceeds (ops i) = false := by
      intro i hi
      rw [List.mem_range'] at hi
      obtain ⟨j, hj, hij⟩ := hi
      exact hfail i (by omega)
    have hres := retryGo_first_ok ops v (List.range' 0 k) k
      (List.range' (k + 1) (config.max_retries - k - 1)) hfail' hok
    rw [← hsplit] at hres
    rcases hr : retryGo ops (List.range config.max_retries) with ⟨r1, r2, n⟩
    rw [hr] at hres
    simp only [List.length_range'] at hres
    obtain ⟨hr1, hn⟩ := hres
    constructor
    · unfold execute_with_retry
      rw [hr, hr1]
    · rw [hcalls, hr]
      simpa using hn
  · intro e hfail hpos herr
    obtain ⟨m, hm⟩ : ∃ m, config.max_retries = m + 1 := by
      cases h : config.max_retries with
      | zero => omega
      | succ m => exact ⟨m, rfl⟩
    have hsplit : List.range config.max_retries = List.range m ++ [m] := by
      rw [hm]
      exact List.range_succ m
    have hfail' : ∀ i ∈ List.range m ++ [m], attemptSucceeds (ops i) = false := by
      intro i hi
      rcases List.mem_append.mp hi with h | h
      · exact hfail i (by rw [hm]; have := List.mem_range.mp h; omega)
      · have : i = m := by simpa using h
        exact hfail i (by omega)
    have herr' : ops m = .error e := by
      have : config.max_retries - 1 = m := by omega
      rw [← this]
      exact herr
    have hres := retryGo_all_fail ops (List.range m) m e hfail' herr'
    rw [← hsplit] at hres
    constructor
    · unfold execute_with_retry
      rw [hres]
    · rw [hcalls, hres]
      simp [hm]

/-- Witness for C5: with the default config (3 retries), an operation that
fails once then succeeds is returned after exactly 2 invocations. -/
theorem claim_C5_execute_with_retry_witness :
    (execute_with_retry {} fun i =>
      if i = 0 then (.error ⟨false, "boom"⟩ : Except RetryError ℕ) else .ok 42).1
      = .ok 42 ∧
    (execute_with_retry {} fun i =>
      if i = 0 then (.error ⟨false, "boom"⟩ : Except RetryError ℕ) else .ok 42).2 = 2 :=
  (claim_C5_execute_with_retry {} _).2.1 1 42 (by decide)
    (by intro j hj; interval_cases j; rfl) rfl

theorem storeAdd_length_le (max_size : ℕ) (hmax : 1 ≤ max_size)
    (liquidations : List LiquidationEvent) (e : LiquidationEvent)
    (hlen : liquidations.length ≤ max_size) :
    (storeAdd max_size liquidations e).length ≤ max_size := by
  simp only [storeAdd]
  split
  · split
    · omega
    · simp only [List.length_drop, List.length_append, List.length_cons]
      omega
  · rename_i h
    simp only [List.length_append, List.length_cons] at h ⊢
    omega

theorem foldl_storeAdd_drop (max_size : ℕ) (hmax : 1 ≤ max_size) :
    ∀ (events : List LiquidationEvent) (s : List LiquidationEvent),
      s.length ≤ max_size →
      events.foldl (storeAdd max_size) s
        = (s ++ events).drop (s.length + events.length - max_size) := by
  intro events
  induction events with
  | nil =>
    intro s hs
    simp only [List.foldl_nil, List.length_nil, Nat.add_zero, List.append_nil]
    rw [show s.length - max_size = 0 by omega]
    simp
  | cons e rest ih =>
    intro s hs
    rw [List.foldl_cons]
    rw [ih (storeAdd max_size s e) (storeAdd_length_le max_size hmax s e hs)]
    by_cases hover : s.length + 1 > max_size
    · have hlen : s.length = max_size := by omega
      have hadd : storeAdd max_size s e = (s ++ [e]).drop (s.length + 1 - max_size) := by
        unfold storeAdd
        rw [if_pos (by simp; omega), if_neg (by omega)]
        simp [hlen]
      rw [hadd]
      have hle : s.length + 1 - max_size ≤ (s ++ [e]).length := by
        simp only [List.length_append, List.length_cons, List.length_nil]
        omega
      rw [← List.drop_append_of_le_length hle, List.drop_drop]
      have : (s ++ [e]) ++ rest = s ++ e :: rest := by simp
      rw [this]
      congr 1
      simp only [List.length_drop, List.length_append, List.length_cons, List.length_nil]
      omega
    · have hadd : storeAdd max_size s e = s ++ [e] := by
        unfold storeAdd
        rw [if_neg (by simp; omega)]
      rw [hadd]
      have : (s ++ [e]) ++ rest = s ++ e :: rest := by simp
      rw [this]
      congr 1
      simp only [List.length_append, List.length_cons, List.length_nil]
      omega

theorem filter_filter_of_imp {α : Type} (p q : α → Bool)
    (h : ∀ a, p a = true → q a = true) :
    ∀ l : List α, (l.filter q).filter p = l.filter p := by
  intro l
  induction l with
  | nil => simp
  | cons a rest ih =>
    rcases hq : q a with _ | _
    · have hp : p a = false := by
        rcases hpa : p a with _ | _
        · rfl
        · rw [h a hpa] at hq
          cases hq
      simp [List.filter_cons, hq, hp, ih]
    · rcases hp : p a with _ | _
      · simp [List.filter_cons, hq, hp, ih]
      · simp [List.filter_cons, hq, hp, ih]

/-- A liquidation event with the given timestamp, symbol and side (other
fields zeroed), used for concrete store scenarios. -/
def testEvent (t : ℚ) (sym sd : String) : LiquidationEvent :=
  { timestamp := t, symbol := sym, side := sd, price := 0, quantity := 0,
    usd_value := 0, price_level := 0 }

/-- Claim C7 counterexample: with `max_size = 0` the store does NOT stay
within capacity — Python `liquidations[-0:]` is the whole list, so the
first `add` leaves 1 > 0 events in the store. -/
theorem claim_C7_counterexample :
    (storeAdd 0 [] (testEvent 0 "BTCUSDT" "LONG")).length = 1 ∧
    ¬ ((storeAdd 0 [] (testEvent 0 "BTCUSDT" "LONG")).length ≤ 0) := by
  constructor
  · rfl
  · intro h
    simp only [storeAdd] at h
    simp at h

/-- Claim C7 (amended): for capacity `max_size >= 1`, after any sequence
of `add` calls the store holds at most `max_size` events, namely the most
recently added ones in insertion order (FIFO eviction); and
`get_recent`/`get_by_symbol`/`get_aggregated` exclude exactly the stored
events at or before the cutoff `now - hours`. -/
theorem claim_C7_memory_store (max_size : ℕ) (events : List LiquidationEvent)
    (now : ℚ) (hours : ℕ) (symbol : String) (hmax : 1 ≤ max_size) :
    (events.foldl (storeAdd max_size) []).length ≤ max_size ∧
    events.foldl (storeAdd max_size) [] = events.drop (events.length - max_size) ∧
    (∀ st : List LiquidationEvent, ∀ e : LiquidationEvent,
      (e ∈ get_recent st now hours ↔ e ∈ st ∧ now - 3600 * hours < e.timestamp)) ∧
    (∀ st : List LiquidationEvent, ∀ e : LiquidationEvent,
      (e ∈ get_by_symbol st symbol now hours
        ↔ e ∈ st ∧ e.symbol = symbol ∧ now - 3600 * hours < e.timestamp)) ∧
    (∀ st : List LiquidationEvent,
      get_aggregated st symbol now hours
        = get_aggregated (st.filter fun e => now - 3600 * hours < e.timestamp)
            symbol now hours) := by
  have hfold := foldl_storeAdd_drop max_size hmax events [] (by simp)
  simp only [List.nil_append, List.length_nil, Nat.zero_add] at hfold
  refine ⟨?_, hfold, ?_, ?_, ?_⟩
  · rw [hfold]
    simp only [List.length_drop]
    omega
  · intro st e
    simp [get_recent, List.mem_filter]
  · intro st e
    simp only [get_by_symbol, List.mem_filter, decide_eq_true_eq]
  · intro st
    unfold get_aggregated
    have heq : get_by_symbol (st.filter fun e => now - 3600 * hours < e.timestamp)
        symbol now hours = get_by_symbol st symbol now hours := by
      unfold get_by_symbol
      exact filter_filter_of_imp _ _
        (by intro a ha; simp only [decide_eq_true_eq] at ha ⊢; exact ha.2) st
    rw [heq]

/-- Witness for C7: capacity 2 with three inserted events keeps the last
two in order. -/
theorem claim_C7_memory_store_witness :
    (1 : ℕ) ≤ 2 ∧
    [testEvent 1 "BTCUSDT" "LONG", testEvent 2 "BTCUSDT" "LONG",
      testEvent 3 "BTCUSDT" "SHORT"].foldl (storeAdd 2) []
      = [testEvent 1 "BTCUSDT" "LONG", testEvent 2 "BTCUSDT" "LONG",
          testEvent 3 "BTCUSDT" "SHORT"].drop
          ([testEvent 1 "BTCUSDT" "LONG", testEvent 2 "BTCUSDT" "LONG",
            testEvent 3 "BTCUSDT" "SHORT"].length - 2) :=
  ⟨by norm_num,
   (claim_C7_memory_store 2
      [testEvent 1 "BTCUSDT" "LONG", testEvent 2 "BTCUSDT" "LONG",
        testEvent 3 "BTCUSDT" "SHORT"]
      0 24 "BTCUSDT" (by norm_num)).2.1⟩

theorem mem_trace_fetch_price_with_fallback (env : FetchEnv)
    (price_cache : List (String × ℚ × PriceQuote)) (now : ℚ) (coin x : String)
    (hmiss : price_cache.lookup ("price_" ++ coin) = none)
    (hx : x ∈ (tryPriorityExchanges env coin EXCHANGE_PRIORITY).2) :
    x ∈ (fetch_price_with_fallback env price_cache now coin).2.1 := by
  unfold fetch_price_with_fallback
  simp only [hmiss]
  rcases htry : tryPriorityExchanges env coin EXCHANGE_PRIORITY with ⟨r, trace⟩
  rw [htry] at hx
  simp only at hx
  rcases r with _ | q
  · rcases hk : KUCOIN_SYMBOLS.lookup coin with _ | ksym
    · rcases hcg : env.coingecko coin with _ | _ | p <;> simp [hk, hcg, hx]
    · rcases hkf : env.kucoin ksym with _ | _ | p
      · rcases hcg : env.coingecko coin with _ | _ | p <;> simp [hk, hkf, hcg, hx]
      · rcases hcg : env.coingecko coin with _ | _ | p <;> simp [hk, hkf, hcg, hx]
      · simp [hk, hkf, hx]
  · simp [hx]

theorem okx_in_priority_trace (env : FetchEnv) (coin bsym osym : String)
    (hbm : BINANCE_SYMBOLS.lookup coin = some bsym)
    (hom : OKX_SYMBOLS.lookup coin = some osym)
    (hbf : ∀ p, env.binance bsym ≠ .fetched p) :
    "okx" ∈ (tryPriorityExchanges env coin EXCHANGE_PRIORITY).2 := by
  have h1 : SYMBOL_MAPPING.lookup "binance" = some BINANCE_SYMBOLS := rfl
  have h2 : SYMBOL_MAPPING.lookup "okx" = some OKX_SYMBOLS := rfl
  rcases hbo : env.binance bsym with _ | _ | p
  · rcases hoo : env.okx osym with _ | _ | p <;>
      simp [tryPriorityExchanges, EXCHANGE_PRIORITY, h1, h2, hbm, hom, hbo, hoo,
        exchangeFetch]
  · rcases hoo : env.okx osym with _ | _ | p <;>
      simp [tryPriorityExchanges, EXCHANGE_PRIORITY, h1, h2, hbm, hom, hbo, hoo,
        exchangeFetch]
  · exact absurd hbo (hbf p)

theorem tryPriorityExchanges_none_of (env : FetchEnv) (coin : String) :
    ∀ l : List String,
      (∀ exch ∈ l, ∀ sym p,
        ((SYMBOL_MAPPING.lookup exch).getD []).lookup coin = some sym →
        exchangeFetch env exch sym ≠ some (.fetched p)) →
      (tryPriorityExchanges env coin l).1 = none := by
  intro l
  induction l with
  | nil => intro _; simp [tryPriorityExchanges]
  | cons exch rest ih =>
    intro h
    have hrest : ∀ e ∈ rest, ∀ sym p,
        ((SYMBOL_MAPPING.lookup e).getD []).lookup coin = some sym →
        exchangeFetch env e sym ≠ some (.fetched p) := by
      intro e he
      exact h e (by simp [he])
    simp only [tryPriorityExchanges]
    rcases hm : ((SYMBOL_MAPPING.lookup exch).getD []).lookup coin with _ | sym
    · simp only [hm]
      exact ih hrest
    · rcases hf : exchangeFetch env exch sym with _ | out
      · simp only [hm, hf]
        exact ih hrest
      · rcases out with _ | _ | p
        · simp only [hm, hf]
          simpa using ih hrest
        · simp only [hm, hf]
          simpa using ih hrest
        · exact absurd hf (h exch (by simp) sym p hm)

/-- Claim C6: under a cache miss, the aggregator attempts the secondary
exchange (OKX) whenever the primary (Binance) does not return data; and
when every exchange and fallback provider lacks a mapping, raises, or
returns no data, the result is `None` (no exception — every call site is
inside `try/except`) and `fetch_multiple_prices` records a
`"No data available"` error entry for the coin. -/
theorem claim_C6_aggregator_fallback (env : FetchEnv)
    (price_cache : List (String × ℚ × PriceQuote)) (now : ℚ) (coin : String)
    (coins : List String)
    (hmiss : price_cache.lookup ("price_" ++ coin) = none) :
    (∀ bsym osym, BINANCE_SYMBOLS.lookup coin = some bsym →
      OKX_SYMBOLS.lookup coin = some osym →
      (∀ p, env.binance bsym ≠ .fetched p) →
      "okx" ∈ (fetch_price_with_fallback env price_cache now coin).2.1) ∧
    ((∀ sym p, BINANCE_SYMBOLS.lookup coin = some sym → env.binance sym ≠ .fetched p) →
     (∀ sym p, OKX_SYMBOLS.lookup coin = some sym → env.okx sym ≠ .fetched p) →
     (∀ sym p, KUCOIN_SYMBOLS.lookup coin = some sym → env.kucoin sym ≠ .fetched p) →
     (∀ p, env.coingecko coin ≠ .fetched p) →
     (fetch_price_with_fallback env price_cache now coin).1 = none ∧
     (coin ∈ coins →
       (coin, "No data available") ∈ (fetch_multiple_prices env price_cache now coins).2)) := by
  constructor
  · intro bsym osym hbm hom hbf
    exact mem_trace_fetch_price_with_fallback env price_cache now coin "okx" hmiss
      (okx_in_priority_trace env coin bsym osym hbm hom hbf)
  · intro hb ho hk hcg
    have hnone : (tryPriorityExchanges env coin EXCHANGE_PRIORITY).1 = none := by
      apply tryPriorityExchanges_none_of
      intro exch hexch sym p hm hf
      simp only [EXCHANGE_PRIORITY, List.mem_cons, List.not_mem_nil, or_false] at hexch
      rcases hexch with h | h | h | h
      all_goals subst h
      · have : env.binance sym = .fetched p := by
          simpa [exchangeFetch] using hf
        exact hb sym p (by simpa using hm) this
      · have : env.okx sym = .fetched p := by
          simpa [exchangeFetch] using hf
        exact ho sym p (by simpa using hm) this
      · simp [exchangeFetch] at hf
      · simp [exchangeFetch] at hf
    have hres : (fetch_price_with_fallback env price_cache now coin).1 = none := by
      unfold fetch_price_with_fallback
      simp only [hmiss]
      rcases htry : tryPriorityExchanges env coin EXCHANGE_PRIORITY with ⟨r, trace⟩
      rw [htry] at hnone
      simp only at hnone
      subst hnone
      rcases hkm : KUCOIN_SYMBOLS.lookup coin with _ | ksym
      · rcases hcgo : env.coingecko coin with _ | _ | p
        · simp [hkm, hcgo]
        · simp [hkm, hcgo]
        · exact absurd hcgo (hcg p)
      · rcases hko : env.kucoin ksym with _ | _ | p
        · rcases hcgo : env.coingecko coin with _ | _ | p
          · simp [hkm, hko, hcgo]
          · simp [hkm, hko, hcgo]
          · exact absurd hcgo (hcg p)
        · rcases hcgo : env.coingecko coin with _ | _ | p
          · simp [hkm, hko, hcgo]
          · simp [hkm, hko, hcgo]
          · exact absurd hcgo (hcg p)
        · exact absurd hko (hk ksym p hkm)
    refine ⟨hres, ?_⟩
    intro hcoin
    unfold fetch_multiple_prices
    simp only []
    apply List.mem_filterMap.mpr
    refine ⟨(coin, (fetch_price_with_fallback env price_cache now coin).1), ?_, ?_⟩
    · exact List.mem_map.mpr ⟨coin, hcoin, rfl⟩
    · rw [hres]

/-- Witness for C6: with every provider failing for BTC and an empty
cache, the aggregator attempts OKX, returns `None`, and the batch fetch
records the error entry. -/
theorem claim_C6_aggregator_fallback_witness :
    ("okx" ∈ (fetch_price_with_fallback
      { binance := fun _ => .raises, okx := fun _ => .noData,
        kucoin := fun _ => .raises, coingecko := fun _ => .noData }
      [] 0 "BTC").2.1) ∧
    (fetch_price_with_fallback
      { binance := fun _ => .raises, okx := fun _ => .noData,
        kucoin := fun _ => .raises, coingecko := fun _ => .noData }
      [] 0 "BTC").1 = none ∧
    ("BTC", "No data available") ∈ (fetch_multiple_prices
      { binance := fun _ => .raises, okx := fun _ => .noData,
        kucoin := fun _ => .raises, coingecko := fun _ => .noData }
      [] 0 ["BTC"]).2 := by
  have h := claim_C6_aggregator_fallback
    { binance := fun _ => .raises, okx := fun _ => .noData,
      kucoin := fun _ => .raises, coingecko := fun _ => .noData }
    [] 0 "BTC" ["BTC"] rfl
  have hfail := h.2 (by intro sym p _ hcon; cases hcon)
    (by intro sym p _ hcon; cases hcon) (by intro sym p _ hcon; cases hcon)
    (by intro p hcon; cases hcon)
  exact ⟨h.1 "BTCUSDT" "BTC-USDT" rfl rfl (by intro p hcon; cases hcon),
    hfail.1, hfail.2 (by simp)⟩
